import Mathlib

set_option maxRecDepth 100000

/-
Verification development for the two-pass TOC extraction pipeline of
pdf-literary-lens-local (src/python-server/toc_logic.py).

The embedding models:
  * json.loads (Python stdlib) as a small executable JSON parser over an
    integer-number subset of JSON (the pipeline only ever manipulates
    objects, arrays, strings, integers, booleans and null);
  * the retry wrapper get_structured_data_from_images (lines 105-125),
    with the per-attempt outcome of the external inference capability as an
    explicit function Nat -> CallResult, instrumented with the number of
    attempts made and the backoff sleeps performed;
  * the post-render part of process_pdf (lines 183-258): discovery chunking
    with chunk_size 5, candidate-index aggregation, the verification call,
    metadata consolidation and the final stable sort of toc_entries.

Pages are represented by their 0-based indices (image_paths[i] is modelled
as the index i).
-/

/-- Checks whether the pattern list is a leading segment of the haystack. -/
def takeMatches : List Char → List Char → Bool
  | [], _ => true
  | _ :: _, [] => false
  | c :: cs, d :: ds => c == d && takeMatches cs ds

/-- Checks whether the needle occurs contiguously inside the haystack. -/
def containsSub (hay needle : List Char) : Bool :=
  match hay with
  | [] => needle.isEmpty
  | _ :: t => takeMatches needle hay || containsSub t needle

/-- Substring test on strings, used to model Python's `in` operator on str. -/
def strContains (hay needle : String) : Bool :=
  containsSub hay.data needle.data

/-- JSON values (integer-number subset), the result type of `loads`. -/
inductive Json where
  | null : Json
  | bool (b : Bool) : Json
  | num (n : Int) : Json
  | str (s : String) : Json
  | arr (elems : List Json) : Json
  | obj (fields : List (String × Json)) : Json

/-- Whitespace recognized by the JSON grammar. -/
def isWsChar (c : Char) : Bool :=
  c == ' ' || c == '\n' || c == '\t' || c == '\r'

/-- Drops leading JSON whitespace. -/
def skipWs : List Char → List Char
  | [] => []
  | c :: cs => if isWsChar c then skipWs cs else c :: cs

/-- Decodes a single JSON string escape character (the \\uXXXX form is not
needed by this development and is rejected). -/
def escChar (e : Char) : Option Char :=
  if e == '"' then some '"'
  else if e == '\\' then some '\\'
  else if e == '/' then some '/'
  else if e == 'n' then some '\n'
  else if e == 't' then some '\t'
  else if e == 'r' then some '\r'
  else if e == 'b' then some (Char.ofNat 8)
  else if e == 'f' then some (Char.ofNat 12)
  else none

/-- Parses the body of a JSON string after the opening quote, returning the
decoded characters and the remaining input after the closing quote. -/
def parseStrChars (l : List Char) : Option (List Char × List Char) :=
  match l with
  | [] => none
  | c :: cs =>
    if c == '"' then some ([], cs)
    else if c == '\\' then
      match cs with
      | [] => none
      | e :: cs2 =>
        match escChar e, parseStrChars cs2 with
        | some ch, some (body, rest) => some (ch :: body, rest)
        | _, _ => none
    else
      match parseStrChars cs with
      | some (body, rest) => some (c :: body, rest)
      | none => none

/-- Splits a character list into its leading run of decimal digits and the
rest. -/
def splitDigits : List Char → List Char × List Char
  | [] => ([], [])
  | c :: cs =>
    if c.isDigit then
      let p := splitDigits cs
      (c :: p.1, p.2)
    else ([], c :: cs)

/-- Decimal value of a digit list. -/
def digitsToNat (ds : List Char) : Nat :=
  ds.foldl (fun a c => a * 10 + (c.toNat - 48)) 0

/-- Parses an unsigned JSON integer; fractional or exponent forms are outside
the subset used by this pipeline and are rejected. -/
def parseNatNum (l : List Char) : Option (Nat × List Char) :=
  let p := splitDigits l
  if p.1.isEmpty then none
  else
    match p.2 with
    | c :: _ => if c == '.' || c == 'e' || c == 'E' then none else some (digitsToNat p.1, p.2)
    | [] => some (digitsToNat p.1, [])

/-- Parses a JSON integer with optional leading minus sign. -/
def parseNum (l : List Char) : Option (Int × List Char) :=
  match l with
  | '-' :: rest => (parseNatNum rest).map (fun p => (-(p.1 : Int), p.2))
  | _ => (parseNatNum l).map (fun p => ((p.1 : Int), p.2))

/-- Consumes an expected literal character sequence. -/
def stripTok : List Char → List Char → Option (List Char)
  | [], cs => some cs
  | p :: ps, c :: cs => if c == p then stripTok ps cs else none
  | _ :: _, [] => none

/-- Inserts a key into an object field list the way Python dict assignment
does: an existing key keeps its position and gets the new value, a new key is
appended. -/
def insertField (fs : List (String × Json)) (k : String) (v : Json) : List (String × Json) :=
  match fs with
  | [] => [(k, v)]
  | (k2, v2) :: rest => if k2 == k then (k2, v) :: rest else (k2, v2) :: insertField rest k v

/-- Builds a Python-dict-like field list from parsed key/value pairs
(duplicate keys keep the first position and the last value, as json.loads
does). -/
def buildDict (pairs : List (String × Json)) : List (String × Json) :=
  pairs.foldl (fun fs kv => insertField fs kv.1 kv.2) []

mutual

/-- Fuel-indexed parser for one JSON value. -/
def parseVal : Nat → List Char → Option (Json × List Char)
  | 0, _ => none
  | fuel + 1, l =>
    match skipWs l with
    | [] => none
    | c :: rest =>
      if c == '"' then
        match parseStrChars rest with
        | some (body, rem) => some (Json.str (String.mk body), rem)
        | none => none
      else if c == '\x7b' then parseObjFirst fuel rest
      else if c == '[' then parseArrFirst fuel rest
      else if c == 't' then
        match stripTok ['r', 'u', 'e'] rest with
        | some rem => some (Json.bool true, rem)
        | none => none
      else if c == 'f' then
        match stripTok ['a', 'l', 's', 'e'] rest with
        | some rem => some (Json.bool false, rem)
        | none => none
      else if c == 'n' then
        match stripTok ['u', 'l', 'l'] rest with
        | some rem => some (Json.null, rem)
        | none => none
      else
        match parseNum (c :: rest) with
        | some (n, rem) => some (Json.num n, rem)
        | none => none

/-- Parses the contents of a JSON array after the opening bracket. -/
def parseArrFirst : Nat → List Char → Option (Json × List Char)
  | 0, _ => none
  | fuel + 1, l =>
    match skipWs l with
    | ']' :: rem => some (Json.arr [], rem)
    | l2 =>
      match parseVal fuel l2 with
      | none => none
      | some (v, rem) =>
        match parseArrRest fuel rem with
        | none => none
        | some (vs, rem2) => some (Json.arr (v :: vs), rem2)

/-- Parses the continuation of a JSON array after a parsed element. -/
def parseArrRest : Nat → List Char → Option (List Json × List Char)
  | 0, _ => none
  | fuel + 1, l =>
    match skipWs l with
    | ']' :: rem => some ([], rem)
    | ',' :: rem =>
      match parseVal fuel rem with
      | none => none
      | some (v, rem2) =>
        match parseArrRest fuel rem2 with
        | none => none
        | some (vs, rem3) => some (v :: vs, rem3)
    | _ => none

/-- Parses the contents of a JSON object after the opening brace. -/
def parseObjFirst : Nat → List Char → Option (Json × List Char)
  | 0, _ => none
  | fuel + 1, l =>
    match skipWs l with
    | '\x7d' :: rem => some (Json.obj [], rem)
    | l2 =>
      match parsePair fuel l2 with
      | none => none
      | some (k, v, rem) =>
        match parseObjRest fuel rem with
        | none => none
        | some (pairs, rem2) => some (Json.obj (buildDict ((k, v) :: pairs)), rem2)

/-- Parses the continuation of a JSON object after a parsed pair. -/
def parseObjRest : Nat → List Char → Option (List (String × Json) × List Char)
  | 0, _ => none
  | fuel + 1, l =>
    match skipWs l with
    | '\x7d' :: rem => some ([], rem)
    | ',' :: rem =>
      match parsePair fuel rem with
      | none => none
      | some (k, v, rem2) =>
        match parseObjRest fuel rem2 with
        | none => none
        | some (pairs, rem3) => some ((k, v) :: pairs, rem3)
    | _ => none

/-- Parses one `"key": value` pair of a JSON object. -/
def parsePair : Nat → List Char → Option (String × Json × List Char)
  | 0, _ => none
  | fuel + 1, l =>
    match skipWs l with
    | '"' :: rest =>
      match parseStrChars rest with
      | none => none
      | some (key, rem) =>
        match skipWs rem with
        | ':' :: rem2 =>
          match parseVal fuel rem2 with
          | none => none
          | some (v, rem3) => some (String.mk key, v, rem3)
        | _ => none
    | _ => none

end

/-- Models Python's json.loads on the strings this pipeline produces and
consumes: successful parse of a single value followed only by whitespace. -/
def loads (s : String) : Option Json :=
  match parseVal (2 * s.length + 4) s.data with
  | some (v, rest) => if (skipWs rest).isEmpty then some v else none
  | none => none

/-- Key lookup in an object field list. -/
def lookupField (fs : List (String × Json)) (k : String) : Option Json :=
  match fs with
  | [] => none
  | (k2, v) :: rest => if k2 == k then some v else lookupField rest k

/-- Models Python `dict.get(k)` on a parsed JSON value. On a non-object value
CPython raises AttributeError (which toc_logic.py does not catch); the claims
treated here only exercise object results, where this model is exact. -/
def Json.getKey : Json → String → Option Json
  | Json.obj fs, k => lookupField fs k
  | _, _ => none

/-- Models Python `dict.get(k, d)` with a default. -/
def dictGetD (j : Json) (k : String) (d : Json) : Json :=
  match j.getKey k with
  | some v => v
  | none => d

/-- Models Python truthiness of a parsed JSON value. -/
def Json.truthy : Json → Bool
  | Json.null => false
  | Json.bool b => b
  | Json.num n => n != 0
  | Json.str s => !s.isEmpty
  | Json.arr es => !es.isEmpty
  | Json.obj fs => !fs.isEmpty

/-- Whether a JSON value is null. -/
def Json.isNull : Json → Bool
  | Json.null => true
  | _ => false

/-- Models `sum(1 for value in metadata.values() if value is not None)` from
toc_logic.py line 239, for object-shaped metadata (the schema-constrained
case; CPython raises AttributeError on non-dict truthy metadata). -/
def Json.filledCount : Json → Nat
  | Json.obj fs => (fs.filter fun kv => !(Json.isNull kv.2)).length
  | _ => 0

/-- Outcome of one attempt of the external extraction capability: either the
SDK call returns response text, or it raises an exception with a message. -/
inductive CallResult where
  | ok (text : String)
  | exc (msg : String)

/-- The retry bound `max_retries = 3` of toc_logic.py line 105. -/
def max_retries : Nat := 3

/-- Failure classification of toc_logic.py line 118: an exception is
transient when its text contains "Deadline Exceeded" or "503". -/
def isTransientError (msg : String) : Bool :=
  strContains msg "Deadline Exceeded" || strContains msg "503"

/-- Whether attempt `a` of a call function fails with a transient error. -/
def isTransientAt (call : Nat → CallResult) (a : Nat) : Bool :=
  match call a with
  | CallResult.ok _ => false
  | CallResult.exc m => isTransientError m

/-- The sentinel string returned on line 122 after retries are exhausted. -/
def exhaustedText : String :=
  "\x7b\"error\": \"API call failed after multiple retries\"\x7d"

/-- The sentinel string returned on line 124 for a non-transient failure; the
exception text is interpolated verbatim by the f-string. -/
def fatalText (details : String) : String :=
  "\x7b\"error\": \"API call failed\", \"details\": \"" ++ details ++ "\"\x7d"

/-- The sentinel string of the unreachable line 125. -/
def loopEndText : String :=
  "\x7b\"error\": \"API call failed after all retries\"\x7d"

/-- Result of the retry wrapper: the string it returns, instrumented with the
number of capability attempts made and the backoff sleeps (in seconds, in
order) that were performed. -/
structure RetryResult where
  text : String
  attemptsMade : Nat
  delays : List Nat
deriving DecidableEq

/-- One step of the retry loop of toc_logic.py lines 106-124: `attempt` is
the current 0-based loop counter and the second argument is the number of
remaining loop iterations including this one (`max_retries - attempt`).
On success the response text is returned; a transient failure sleeps
`2 ^ attempt` seconds and retries while `attempt + 1 < max_retries`, and
becomes the exhausted sentinel otherwise; any other failure returns the
fatal sentinel immediately. -/
def retryLoop (call : Nat → CallResult) (attempt : Nat) : Nat → RetryResult
  | 0 => ⟨loopEndText, 0, []⟩
  | fuel + 1 =>
    match call attempt with
    | CallResult.ok t => ⟨t, 1, []⟩
    | CallResult.exc msg =>
      if isTransientError msg then
        match fuel with
        | 0 => ⟨exhaustedText, 1, []⟩
        | f + 1 =>
          let r := retryLoop call (attempt + 1) (f + 1)
          ⟨r.text, r.attemptsMade + 1, 2 ^ attempt :: r.delays⟩
      else ⟨fatalText msg, 1, []⟩

/-- The retry wrapper of toc_logic.py lines 63-125, as a function of the
per-attempt capability outcomes. -/
def get_structured_data_from_images (call : Nat → CallResult) : RetryResult :=
  retryLoop call 0 max_retries

/-- Sort key of toc_logic.py line 248: `item.get('page_number', 0)`, for
entries whose page_number (when present) is an integer, the schema-
constrained case. -/
def sortKey (j : Json) : Int :=
  match j.getKey "page_number" with
  | some (Json.num n) => n
  | _ => 0

/-- Inserts an entry into an already-sorted list, before the first entry of
equal or larger key; together with `sortEntries` this is a stable ascending
sort, the behavior of Python's `list.sort(key=...)`. -/
def insertEntry (e : Json) : List Json → List Json
  | [] => [e]
  | y :: ys => if sortKey e ≤ sortKey y then e :: y :: ys else y :: insertEntry e ys

/-- Stable ascending sort by `sortKey`, modelling line 248 of toc_logic.py. -/
def sortEntries : List Json → List Json
  | [] => []
  | x :: xs => insertEntry x (sortEntries xs)

/-- Fuel-indexed body of the chunking loop; each step emits the next window
`x :: xs.take w` (that is, `l.take (w+1)`) and recurses on `l.drop (w+1)`.
The fuel only bounds the recursion depth; any fuel at least the list length
gives the same result. -/
def chunkGo {α : Type} (w : Nat) : Nat → List α → List (List α)
  | 0, _ => []
  | _, [] => []
  | fuel + 1, x :: xs => (x :: xs.take w) :: chunkGo w fuel (xs.drop w)

/-- The chunking loop of toc_logic.py lines 188-190: `image_paths[i:i+W]` for
`i in range(0, len(image_paths), W)`. A window size of zero is rejected by
Python's range; it yields no windows here. -/
def chunkWindows {α : Type} (wsize : Nat) (l : List α) : List (List α) :=
  match wsize with
  | 0 => []
  | w + 1 => chunkGo w l.length l

/-- The window size `chunk_size = 5` of toc_logic.py line 186. -/
def chunk_size : Nat := 5

/-- The rendered page indices: both rendering paths of toc_logic.py
(pdf2image with last_page=20, and _render_with_pymupdf with
`range(min(max_pages, doc.page_count))`, max_pages=20) produce the first
`min 20 pageCount` pages. -/
def renderedPages (pageCount : Nat) : List Nat :=
  List.range (min 20 pageCount)

/-- Discovery-flag of toc_logic.py line 199: a chunk result string is flagged
when it parses and `res_json.get("toc_entries")` is truthy. -/
def chunkFlag (s : String) : Bool :=
  match loads s with
  | some j =>
    match j.getKey "toc_entries" with
    | some v => v.truthy
    | none => false
  | none => false

/-- The page indices of chunk `c`, lines 200-204:
`range(i*chunk_size, min(i*chunk_size + chunk_size, len(image_paths)))`. -/
def chunkIndices (numImages c : Nat) : List Nat :=
  List.range' (c * chunk_size) (min chunk_size (numImages - c * chunk_size))

/-- The candidate page set of lines 193-207. The source accumulates a Python
set and later sorts it; since the per-chunk ranges are disjoint and added in
ascending chunk order, the list built here equals `sorted(toc_page_indices)`
directly. -/
def toc_page_indices (numImages : Nat) (results : List String) : List Nat :=
  (List.range results.length).flatMap fun c =>
    if chunkFlag (results.getD c "") then chunkIndices numImages c else []

/-- One iteration of the metadata consolidation loop, lines 236-242. The
accumulator is `(best_metadata, max_filled_fields)`. -/
def metadataStep (acc : Json × Int) (result : Json) : Json × Int :=
  let metadata := dictGetD result "metadata" (Json.obj [])
  if metadata.truthy then
    if (metadata.filledCount : Int) > acc.2 then (metadata, (metadata.filledCount : Int))
    else acc
  else acc

/-- The metadata consolidation of lines 234-242 over the parsed discovery
results, starting from `best_metadata = {}` and `max_filled_fields = -1`. -/
def best_metadata (results : List Json) : Json :=
  (results.foldl metadataStep (Json.obj [], (-1 : Int))).1

/-- Models `final_data.get("toc_entries", [])` from line 245 for the
schema-constrained case where the field, when present, is an array (CPython
would crash at line 248 on a present non-list value). -/
def tocEntriesOf (j : Json) : List Json :=
  match j.getKey "toc_entries" with
  | some (Json.arr es) => es
  | _ => []

/-- The final consolidated record of lines 250-253. -/
structure FinalRecord where
  metadata : Json
  toc_entries : List Json

/-- Observable outcome of one pipeline run: the Python return value of
process_pdf (None or the final dict), whether the Pass-2 extraction
invocation was made, and the page indices passed to it. -/
structure RunOutcome where
  retVal : Option FinalRecord
  verifyInvoked : Bool
  verifyPaths : List Nat

/-- The per-chunk discovery result strings, in chunk order (asyncio.gather
preserves task order): chunk `c`'s string is the return of the retry wrapper
on that chunk's invocation. -/
def discoveryTexts (numChunks : Nat) (discoveryCall : Nat → Nat → CallResult) : List String :=
  (List.range numChunks).map fun c => (get_structured_data_from_images (discoveryCall c)).text

/-- The discovery result strings of a run with the given page count. -/
def discoveryResultsOf (pageCount : Nat) (discoveryCall : Nat → Nat → CallResult) : List String :=
  discoveryTexts (chunkWindows chunk_size (renderedPages pageCount)).length discoveryCall

/-- The candidate page indices of a run (CandidatePageSet, ascending). -/
def candidatesOf (pageCount : Nat) (discoveryCall : Nat → Nat → CallResult) : List Nat :=
  toc_page_indices (renderedPages pageCount).length (discoveryResultsOf pageCount discoveryCall)

/-- The post-render pipeline of process_pdf, toc_logic.py lines 183-258:
discovery over 5-page chunks, candidate aggregation (an empty candidate set
returns None at line 211 without invoking the verification pass), one
verification invocation whose result string is parsed (a parse failure
returns None at line 227), then consolidation: best discovery metadata plus
the verification toc_entries stably sorted by page number. -/
def process_pdf (pageCount : Nat) (discoveryCall : Nat → Nat → CallResult)
    (verifyCall : Nat → CallResult) : RunOutcome :=
  let discovery_results := discoveryResultsOf pageCount discoveryCall
  let indices := candidatesOf pageCount discoveryCall
  if indices.isEmpty then ⟨none, false, []⟩
  else
    match loads (get_structured_data_from_images verifyCall).text with
    | none => ⟨none, true, indices⟩
    | some final_data =>
      ⟨some ⟨best_metadata (discovery_results.filterMap loads),
             sortEntries (tocEntriesOf final_data)⟩, true, indices⟩

/-- The metadata value the consolidation loop reads from one discovery
result: `result.get("metadata", dict())`. -/
def metaOf (r : Json) : Json := dictGetD r "metadata" (Json.obj [])

/-- The filled-field count of one discovery result's metadata, as the Int the
loop compares against `max_filled_fields`. -/
def metaCount (r : Json) : Int := ((metaOf r).filledCount : Int)

/-- Fixture: a discovery chunk response with null metadata and a non-empty
toc_entries array. -/
def discFlagText : String := "\x7b\"metadata\": null, \"toc_entries\": [1]\x7d"

/-- Fixture: a discovery chunk response with an empty toc_entries array. -/
def emptyTocText : String := "\x7b\"metadata\": null, \"toc_entries\": []\x7d"

/-- Fixture: a discovery chunk response with one filled metadata field and a
non-empty toc_entries array. -/
def c1DiscText : String :=
  "\x7b\"metadata\": \x7b\"book_title\": \"T\"\x7d, \"toc_entries\": [1]\x7d"

/-- Fixture: an exception message that injects a toc_entries field into the
fatal error sentinel through its unescaped f-string interpolation. -/
def injMsg : String := "\", \"toc_entries\": [1], \"x\": \""

/-- Fixture: one TocEntry-shaped JSON object. -/
def tocEntryJson (t : String) (p : Int) (r : Bool) : Json :=
  Json.obj [("chapter_title", Json.str t), ("page_number", Json.num p),
            ("reference_boolean", Json.bool r)]

/-- Fixture: verification entries with pages 50, 20, 20, 10 (the two
page-20 entries in input order A then B). -/
def c3Entries : List Json :=
  [tocEntryJson "C" 50 false, tocEntryJson "A" 20 false,
   tocEntryJson "B" 20 true, tocEntryJson "D" 10 false]

/-- Fixture: a verification response text whose toc_entries parse to
`c3Entries`. -/
def c3VerifText : String :=
  "\x7b\"metadata\": null, \"toc_entries\": [" ++
  "\x7b\"chapter_title\": \"C\", \"page_number\": 50, \"reference_boolean\": false\x7d, " ++
  "\x7b\"chapter_title\": \"A\", \"page_number\": 20, \"reference_boolean\": false\x7d, " ++
  "\x7b\"chapter_title\": \"B\", \"page_number\": 20, \"reference_boolean\": true\x7d, " ++
  "\x7b\"chapter_title\": \"D\", \"page_number\": 10, \"reference_boolean\": false\x7d]\x7d"

/-- Fixture: discovery result with 2 filled metadata fields. -/
def c2r0 : Json :=
  Json.obj [("metadata", Json.obj
    [("book_title", Json.str "T"), ("authors", Json.null),
     ("publishing_house", Json.str "P"), ("publishing_year", Json.null)])]

/-- Fixture: discovery result with 0 filled metadata fields (truthy dict). -/
def c2r1 : Json :=
  Json.obj [("metadata", Json.obj [("book_title", Json.null)])]

/-- Fixture: discovery result with 3 filled metadata fields (first max). -/
def c2r2 : Json :=
  Json.obj [("metadata", Json.obj
    [("book_title", Json.str "T3"), ("authors", Json.str "A"),
     ("publishing_house", Json.str "P"), ("publishing_year", Json.null)])]

/-- Fixture: discovery result with 3 filled metadata fields (later tie). -/
def c2r3 : Json :=
  Json.obj [("metadata", Json.obj
    [("book_title", Json.str "X"), ("authors", Json.str "Y"),
     ("publishing_house", Json.str "Z")])]

/-- Fixture: discovery results with filled-field counts [2, 0, 3, 3]. -/
def c2Results : List Json := [c2r0, c2r1, c2r2, c2r3]

/-- Fixture: a discovery capability whose chunk 0 returns an empty
toc_entries array and whose other chunks return an unparseable string. -/
def c7DCall : Nat → Nat → CallResult :=
  fun c _ => if c = 0 then CallResult.ok emptyTocText else CallResult.ok "oops"

/-- Any fuel at least the input length evaluates chunkGo fully. -/
theorem chunkGo_fuel {α : Type} (w : Nat) :
    ∀ (f1 f2 : Nat) (l : List α), l.length ≤ f1 → l.length ≤ f2 →
      chunkGo w f1 l = chunkGo w f2 l := by
  intro f1
  induction f1 with
  | zero =>
    intro f2 l h1 _
    match l, f2 with
    | [], 0 => rfl
    | [], _ + 1 => rfl
    | _ :: _, _ => simp at h1
  | succ f ih =>
    intro f2 l h1 h2
    match l, f2 with
    | [], 0 => rfl
    | [], _ + 1 => rfl
    | x :: xs, 0 => simp at h2
    | x :: xs, g + 1 =>
      simp only [chunkGo, List.cons.injEq, true_and]
      have hlen : xs.length + 1 ≤ f + 1 := by simpa using h1
      have hlen2 : xs.length + 1 ≤ g + 1 := by simpa using h2
      have hd : (xs.drop w).length ≤ f := by simp [List.length_drop]; omega
      have hd2 : (xs.drop w).length ≤ g := by simp [List.length_drop]; omega
      exact ih g (xs.drop w) hd hd2

/-- chunkGo at full fuel on a cons list: one window then the rest. -/
theorem chunkGo_cons {α : Type} (w : Nat) (x : α) (xs : List α) :
    chunkGo w (x :: xs).length (x :: xs)
      = (x :: xs.take w) :: chunkGo w (xs.drop w).length (xs.drop w) := by
  simp only [List.length_cons, chunkGo, List.cons.injEq, true_and]
  exact chunkGo_fuel w xs.length (xs.drop w).length (xs.drop w)
    (by simp [List.length_drop]) (le_refl _)

/-- The recursion equation of the source chunking loop for a positive window
size: the first window is `l.take (w+1)` and the rest is the chunking of
`l.drop (w+1)`. -/
theorem chunkWindows_cons {α : Type} (w : Nat) (x : α) (xs : List α) :
    chunkWindows (w + 1) (x :: xs) = (x :: xs.take w) :: chunkWindows (w + 1) (xs.drop w) := by
  simp only [chunkWindows]
  exact chunkGo_cons w x xs

/-- chunkWindows on the empty list is empty. -/
theorem chunkWindows_nil {α : Type} (wsize : Nat) : chunkWindows wsize ([] : List α) = [] := by
  match wsize with
  | 0 => rfl
  | _ + 1 => rfl

/-- Window count: chunking with window size w+1 yields ceil(N/(w+1)) windows. -/
theorem chunkWindows_length {α : Type} (w : Nat) (l : List α) :
    (chunkWindows (w + 1) l).length = (l.length + w) / (w + 1) := by
  match l with
  | [] =>
    rw [chunkWindows_nil]
    simp [Nat.div_eq_of_lt (by omega : w < w + 1)]
  | x :: xs =>
    rw [chunkWindows_cons]
    have ih := chunkWindows_length w (xs.drop w)
    simp only [List.length_cons, List.length_drop] at *
    by_cases h : xs.length ≤ w
    · have h0 : xs.length - w = 0 := by omega
      rw [h0] at ih
      have ih0 : (chunkWindows (w + 1) (xs.drop w)).length = 0 := by
        rw [ih]
        exact Nat.div_eq_of_lt (by omega)
      rw [ih0]
      have : (xs.length + 1 + w) / (w + 1) = 1 := by
        apply Nat.div_eq_of_lt_le (by omega) (by omega)
      omega
    · have hlen : xs.length - w + w = xs.length := by omega
      rw [hlen] at ih
      rw [ih]
      have : xs.length + 1 + w = xs.length + (w + 1) := by omega
      rw [this, Nat.add_div_right _ (by omega)]
termination_by l.length
decreasing_by simp [List.length_drop]; omega

/-- Coverage: concatenating the windows in order recovers the input list, so
every index is covered exactly once and global order is preserved. -/
theorem chunkWindows_flatten {α : Type} (w : Nat) (l : List α) :
    (chunkWindows (w + 1) l).flatten = l := by
  match l with
  | [] => rw [chunkWindows_nil]; rfl
  | x :: xs =>
    rw [chunkWindows_cons]
    have ih := chunkWindows_flatten w (xs.drop w)
    simp [List.flatten_cons, ih, List.take_append_drop]
termination_by l.length
decreasing_by simp [List.length_drop]; omega

/-- Window contents: window i is exactly the slice [i*(w+1), (i+1)*(w+1)) of
the input (truncated at the end of the list). -/
theorem chunkWindows_getD {α : Type} (w : Nat) (l : List α) (i : Nat) :
    (chunkWindows (w + 1) l).getD i [] = (l.drop (i * (w + 1))).take (w + 1) := by
  match l with
  | [] => rw [chunkWindows_nil]; simp
  | x :: xs =>
    rw [chunkWindows_cons]
    match i with
    | 0 => simp
    | i + 1 =>
      have ih := chunkWindows_getD w (xs.drop w) i
      simp only [List.getD_cons_succ, ih, List.drop_drop]
      have harith : (i + 1) * (w + 1) = (w + i * (w + 1)) + 1 := by ring
      rw [harith, List.drop_succ_cons]
termination_by l.length
decreasing_by simp [List.length_drop]; omega

/-- Claim C4: for every N >= 0 and window size W >= 1, the chunking loop
partitions the ordered page sequence into ceil(N/W) contiguous windows,
window i covering indices [i*W, min((i+1)*W, N)), so every index is covered
exactly once and global order is preserved. -/
theorem c4_chunk_dispatcher (W : Nat) (hW : 1 ≤ W) (l : List Nat) :
    (chunkWindows W l).length = (l.length + (W - 1)) / W ∧
    (chunkWindows W l).flatten = l ∧
    ∀ i : Nat, (chunkWindows W l).getD i [] = (l.drop (i * W)).take W := by
  obtain ⟨w, rfl⟩ : ∃ w, W = w + 1 := ⟨W - 1, by omega⟩
  refine ⟨?_, chunkWindows_flatten w l, fun i => chunkWindows_getD w l i⟩
  simpa using chunkWindows_length w l

/-- Witness for C4: 12 pages with window size 5 give 3 windows of sizes
5, 5, 2, and window 2 is the slice starting at index 10. -/
theorem c4_chunk_dispatcher_witness :
    (chunkWindows 5 (List.range 12)).length = ((List.range 12).length + (5 - 1)) / 5 ∧
    (chunkWindows 5 (List.range 12)).flatten = List.range 12 ∧
    (chunkWindows 5 (List.range 12)).getD 2 [] = ((List.range 12).drop (2 * 5)).take 5 ∧
    (chunkWindows 5 (List.range 12)).map List.length = [5, 5, 2] :=
  ⟨(c4_chunk_dispatcher 5 (by decide) (List.range 12)).1,
   (c4_chunk_dispatcher 5 (by decide) (List.range 12)).2.1,
   (c4_chunk_dispatcher 5 (by decide) (List.range 12)).2.2 2,
   by decide⟩

/-- Claim C5: transient failures are retried up to 3 total attempts with
exponential backoff (delay n is 2^(n-1) seconds, base 1 second): failing
Transient twice then succeeding on the 3rd attempt returns the success text
after exactly the two delays 1 and 2; always failing Transient yields the
exhausted sentinel after exactly 3 attempts, no more. -/
theorem c5_retry_policy (call : Nat → CallResult) (m0 m1 : String)
    (h0 : call 0 = CallResult.exc m0) (ht0 : isTransientError m0 = true)
    (h1 : call 1 = CallResult.exc m1) (ht1 : isTransientError m1 = true) :
    (∀ t : String, call 2 = CallResult.ok t →
        get_structured_data_from_images call = ⟨t, 3, [1, 2]⟩) ∧
    (∀ m2 : String, call 2 = CallResult.exc m2 → isTransientError m2 = true →
        get_structured_data_from_images call = ⟨exhaustedText, 3, [1, 2]⟩) := by
  constructor
  · intro t h2
    simp [get_structured_data_from_images, max_retries, retryLoop, h0, ht0, h1, ht1, h2]
  · intro m2 h2 ht2
    simp [get_structured_data_from_images, max_retries, retryLoop, h0, ht0, h1, ht1, h2, ht2]

/-- Witness for C5 at concrete calls: two 503 failures then success, and an
always-transient call. -/
theorem c5_retry_policy_witness :
    get_structured_data_from_images
        (fun a => if a < 2 then CallResult.exc "503" else CallResult.ok "done") =
      ⟨"done", 3, [1, 2]⟩ ∧
    get_structured_data_from_images (fun _ => CallResult.exc "Deadline Exceeded") =
      ⟨exhaustedText, 3, [1, 2]⟩ :=
  ⟨(c5_retry_policy _ "503" "503" rfl (by decide) rfl (by decide)).1 "done" rfl,
   (c5_retry_policy _ "Deadline Exceeded" "Deadline Exceeded" rfl (by decide) rfl
      (by decide)).2 "Deadline Exceeded" rfl (by decide)⟩

/-- Claim C9: a Fatal (non-transient) failure at any attempt is never
retried: the wrapped call stops at that attempt with the fatal sentinel,
having made exactly k+1 attempts, and the only sleeps performed are the
backoffs of the earlier transient attempts (none for the fatal one). -/
theorem c9_fatal_no_retry (call : Nat → CallResult) (k : Nat) (hk : k < max_retries)
    (hprev : ∀ j, j < k → isTransientAt call j = true)
    (m : String) (hm : call k = CallResult.exc m) (hfatal : isTransientError m = false) :
    get_structured_data_from_images call =
      ⟨fatalText m, k + 1, (List.range k).map (fun a => 2 ^ a)⟩ := by
  match k with
  | 0 =>
    simp [get_structured_data_from_images, max_retries, retryLoop, hm, hfatal]
  | 1 =>
    have h0 := hprev 0 (by omega)
    rw [isTransientAt] at h0
    cases hc0 : call 0 with
    | ok t => rw [hc0] at h0; simp at h0
    | exc mm =>
      rw [hc0] at h0
      simp only at h0
      simp [get_structured_data_from_images, max_retries, retryLoop, hc0, h0, hm, hfatal,
        List.range_succ]
  | 2 =>
    have h0 := hprev 0 (by omega)
    have h1 := hprev 1 (by omega)
    rw [isTransientAt] at h0 h1
    cases hc0 : call 0 with
    | ok t => rw [hc0] at h0; simp at h0
    | exc mm0 =>
      rw [hc0] at h0
      simp only at h0
      cases hc1 : call 1 with
      | ok t => rw [hc1] at h1; simp at h1
      | exc mm1 =>
        rw [hc1] at h1
        simp only at h1
        simp [get_structured_data_from_images, max_retries, retryLoop, hc0, h0, hc1, h1,
          hm, hfatal, List.range_succ]
  | n + 3 =>
    rw [max_retries] at hk
    omega

/-- Witness for C9: an immediate authorization-style failure is returned
fatally after a single attempt with no sleeps. -/
theorem c9_fatal_no_retry_witness :
    get_structured_data_from_images (fun _ => CallResult.exc "401 unauthorized") =
      ⟨fatalText "401 unauthorized", 0 + 1, (List.range 0).map (fun a => 2 ^ a)⟩ :=
  c9_fatal_no_retry _ 0 (by decide) (fun _ hj => absurd hj (by omega))
    "401 unauthorized" rfl (by decide)

/-- When all three attempts fail transiently, the retry wrapper returns the
exhausted sentinel string. -/
theorem retry_text_exhausted (call : Nat → CallResult)
    (h0 : isTransientAt call 0 = true) (h1 : isTransientAt call 1 = true)
    (h2 : isTransientAt call 2 = true) :
    (get_structured_data_from_images call).text = exhaustedText := by
  rw [isTransientAt] at h0 h1 h2
  cases hc0 : call 0 with
  | ok t => rw [hc0] at h0; simp at h0
  | exc m0 =>
    rw [hc0] at h0
    simp only at h0
    cases hc1 : call 1 with
    | ok t => rw [hc1] at h1; simp at h1
    | exc m1 =>
      rw [hc1] at h1
      simp only at h1
      cases hc2 : call 2 with
      | ok t => rw [hc2] at h2; simp at h2
      | exc m2 =>
        rw [hc2] at h2
        simp only at h2
        simp [get_structured_data_from_images, max_retries, retryLoop, hc0, h0, hc1, h1, hc2, h2]

/-- Inserting an entry permutes cons: nothing is added or removed. -/
theorem insertEntry_perm (e : Json) (l : List Json) : (insertEntry e l).Perm (e :: l) := by
  induction l with
  | nil => exact List.Perm.refl _
  | cons y ys ih =>
    rw [insertEntry]
    by_cases h : sortKey e ≤ sortKey y
    · rw [if_pos h]
    · rw [if_neg h]
      exact (ih.cons y).trans (List.Perm.swap e y ys)

/-- The sorted entry list is a permutation of the input. -/
theorem sortEntries_perm (l : List Json) : (sortEntries l).Perm l := by
  induction l with
  | nil => exact List.Perm.refl _
  | cons x xs ih => exact (insertEntry_perm x (sortEntries xs)).trans (ih.cons x)

/-- Inserting into a key-sorted list keeps it key-sorted. -/
theorem insertEntry_pairwise (e : Json) (l : List Json)
    (h : l.Pairwise fun a b => sortKey a ≤ sortKey b) :
    (insertEntry e l).Pairwise fun a b => sortKey a ≤ sortKey b := by
  induction l with
  | nil => simp [insertEntry]
  | cons y ys ih =>
    rw [List.pairwise_cons] at h
    obtain ⟨hy, hys⟩ := h
    rw [insertEntry]
    by_cases hle : sortKey e ≤ sortKey y
    · rw [if_pos hle, List.pairwise_cons]
      refine ⟨?_, List.pairwise_cons.mpr ⟨hy, hys⟩⟩
      intro a ha
      rcases List.mem_cons.mp ha with rfl | ha'
      · exact hle
      · exact le_trans hle (hy a ha')
    · rw [if_neg hle, List.pairwise_cons]
      refine ⟨?_, ih hys⟩
      intro a ha
      have hmem := (insertEntry_perm e ys).mem_iff.mp ha
      rcases List.mem_cons.mp hmem with rfl | ha'
      · omega
      · exact hy a ha'

/-- The sorted entry list is ascending in the page-number key. -/
theorem sortEntries_pairwise (l : List Json) :
    (sortEntries l).Pairwise fun a b => sortKey a ≤ sortKey b := by
  induction l with
  | nil => simp [sortEntries]
  | cons x xs ih => exact insertEntry_pairwise x _ ih

/-- Stability, insertion step, matching key: the inserted entry lands before
every existing entry of the same key. -/
theorem insertEntry_filter_eq (k : Int) (e : Json) (l : List Json) (he : sortKey e = k) :
    (insertEntry e l).filter (fun j => sortKey j == k) =
      e :: l.filter (fun j => sortKey j == k) := by
  induction l with
  | nil => simp [insertEntry, List.filter, he]
  | cons y ys ih =>
    rw [insertEntry]
    by_cases hle : sortKey e ≤ sortKey y
    · rw [if_pos hle, List.filter_cons]
      simp [he]
    · rw [if_neg hle]
      have hy : (sortKey y == k) = false := by
        have : sortKey y < k := by omega
        simp only [beq_eq_false_iff_ne, ne_eq]
        omega
      rw [List.filter_cons, List.filter_cons, hy]
      simp only [Bool.false_eq_true, if_false, ih]

/-- Stability, insertion step, other keys: the filter is untouched. -/
theorem insertEntry_filter_ne (k : Int) (e : Json) (l : List Json) (he : sortKey e ≠ k) :
    (insertEntry e l).filter (fun j => sortKey j == k) =
      l.filter (fun j => sortKey j == k) := by
  have hene : (sortKey e == k) = false := by
    simp only [beq_eq_false_iff_ne, ne_eq]
    exact he
  induction l with
  | nil => simp [insertEntry, List.filter, hene]
  | cons y ys ih =>
    rw [insertEntry]
    by_cases hle : sortKey e ≤ sortKey y
    · rw [if_pos hle, List.filter_cons, hene]
      simp only [Bool.false_eq_true, if_false]
    · rw [if_neg hle, List.filter_cons, List.filter_cons]
      by_cases hyk : (sortKey y == k) = true
      · rw [hyk]
        simp only [if_true, ih]
      · rw [Bool.not_eq_true] at hyk
        rw [hyk]
        simp only [Bool.false_eq_true, if_false, ih]

/-- Stability: entries of any fixed key keep their relative input order. -/
theorem sortEntries_filter (k : Int) (l : List Json) :
    (sortEntries l).filter (fun j => sortKey j == k) =
      l.filter (fun j => sortKey j == k) := by
  induction l with
  | nil => rfl
  | cons x xs ih =>
    rw [sortEntries]
    by_cases hx : sortKey x = k
    · rw [insertEntry_filter_eq k x _ hx, ih, List.filter_cons]
      simp [hx]
    · rw [insertEntry_filter_ne k x _ hx, ih, List.filter_cons]
      have : (sortKey x == k) = false := by
        simp only [beq_eq_false_iff_ne, ne_eq]
        exact hx
      rw [this]
      simp only [Bool.false_eq_true, if_false]

/-- process_pdf when the candidate set is empty: the line-211 return. -/
theorem process_pdf_no_candidates (pageCount : Nat) (dcall : Nat → Nat → CallResult)
    (vcall : Nat → CallResult) (h : (candidatesOf pageCount dcall).isEmpty = true) :
    process_pdf pageCount dcall vcall = ⟨none, false, []⟩ := by
  simp [process_pdf, h]

/-- process_pdf when verification's result string fails to parse: the
line-227 return. -/
theorem process_pdf_parse_fail (pageCount : Nat) (dcall : Nat → Nat → CallResult)
    (vcall : Nat → CallResult)
    (hne : (candidatesOf pageCount dcall).isEmpty = false)
    (hp : loads (get_structured_data_from_images vcall).text = none) :
    process_pdf pageCount dcall vcall = ⟨none, true, candidatesOf pageCount dcall⟩ := by
  simp [process_pdf, hne, hp]

/-- process_pdf when verification's result string parses: the consolidated
record of lines 250-258. -/
theorem process_pdf_record (pageCount : Nat) (dcall : Nat → Nat → CallResult)
    (vcall : Nat → CallResult) (j : Json)
    (hne : (candidatesOf pageCount dcall).isEmpty = false)
    (hp : loads (get_structured_data_from_images vcall).text = some j) :
    process_pdf pageCount dcall vcall =
      ⟨some ⟨best_metadata ((discoveryResultsOf pageCount dcall).filterMap loads),
             sortEntries (tocEntriesOf j)⟩, true, candidatesOf pageCount dcall⟩ := by
  simp [process_pdf, hne, hp]

/-- Claim C3: the final TOC is exactly the verification stage's entry list
with no entry removed, added, deduplicated or filtered (a permutation),
sorted ascending by page number with a stable sort: entries with equal page
numbers retain their original relative order. -/
theorem c3_final_toc_sort (pageCount : Nat) (dcall : Nat → Nat → CallResult)
    (vcall : Nat → CallResult) (fs : List (String × Json)) (es : List Json)
    (hne : (candidatesOf pageCount dcall).isEmpty = false)
    (hparse : loads (get_structured_data_from_images vcall).text = some (Json.obj fs))
    (hentries : lookupField fs "toc_entries" = some (Json.arr es)) :
    (process_pdf pageCount dcall vcall).retVal =
      some ⟨best_metadata ((discoveryResultsOf pageCount dcall).filterMap loads),
            sortEntries es⟩ ∧
    (sortEntries es).Perm es ∧
    (sortEntries es).Pairwise (fun a b => sortKey a ≤ sortKey b) ∧
    ∀ k : Int, (sortEntries es).filter (fun j => sortKey j == k) =
      es.filter (fun j => sortKey j == k) := by
  refine ⟨?_, sortEntries_perm es, sortEntries_pairwise es, fun k => sortEntries_filter k es⟩
  rw [process_pdf_record pageCount dcall vcall (Json.obj fs) hne hparse]
  simp only [tocEntriesOf, Json.getKey, hentries]

/-- Witness for C3: a concrete run whose verification entries have pages
[50, 20, 20, 10]; the sorted result is [10, 20, 20, 50] and the two page-20
entries A and B keep their input order. -/
theorem c3_final_toc_sort_witness :
    (process_pdf 1 (fun _ _ => CallResult.ok discFlagText)
        (fun _ => CallResult.ok c3VerifText)).retVal =
      some ⟨best_metadata ((discoveryResultsOf 1
              (fun _ _ => CallResult.ok discFlagText)).filterMap loads),
            sortEntries c3Entries⟩ ∧
    (sortEntries c3Entries).Perm c3Entries ∧
    (sortEntries c3Entries).Pairwise (fun a b => sortKey a ≤ sortKey b) ∧
    (sortEntries c3Entries).filter (fun j => sortKey j == (20 : Int)) =
      c3Entries.filter (fun j => sortKey j == (20 : Int)) ∧
    sortEntries c3Entries =
      [tocEntryJson "D" 10 false, tocEntryJson "A" 20 false,
       tocEntryJson "B" 20 true, tocEntryJson "C" 50 false] := by
  have h := c3_final_toc_sort 1 (fun _ _ => CallResult.ok discFlagText)
    (fun _ => CallResult.ok c3VerifText)
    [("metadata", Json.null), ("toc_entries", Json.arr c3Entries)] c3Entries
    (by decide) rfl rfl
  exact ⟨h.1, h.2.1, h.2.2.1, h.2.2.2 20, rfl⟩

/-- Behavior of the consolidation fold from an arbitrary accumulator, when
every result's metadata is truthy: either nothing beats the accumulator, or
the fold returns the metadata and count of the first result attaining the
maximum count above the accumulator's bound. -/
theorem foldl_metadataStep_spec (results : List Json)
    (htr : ∀ r ∈ results, (metaOf r).truthy = true) :
    ∀ acc : Json × Int,
      (results.foldl metadataStep acc = acc ∧ ∀ r ∈ results, metaCount r ≤ acc.2) ∨
      (∃ i, i < results.length ∧
        results.foldl metadataStep acc =
          (metaOf (results.getD i Json.null), metaCount (results.getD i Json.null)) ∧
        acc.2 < metaCount (results.getD i Json.null) ∧
        (∀ j, j < results.length →
          metaCount (results.getD j Json.null) ≤ metaCount (results.getD i Json.null)) ∧
        (∀ j, j < i →
          metaCount (results.getD j Json.null) < metaCount (results.getD i Json.null))) := by
  induction results with
  | nil =>
    intro acc
    left
    exact ⟨rfl, by simp⟩
  | cons r rest ih =>
    intro acc
    have htr_r : (metaOf r).truthy = true := htr r (List.mem_cons_self r rest)
    have htr_rest : ∀ x ∈ rest, (metaOf x).truthy = true :=
      fun x hx => htr x (List.mem_cons_of_mem r hx)
    rw [List.foldl_cons]
    have hstep : metadataStep acc r =
        if metaCount r > acc.2 then (metaOf r, metaCount r) else acc := by
      rw [metadataStep]
      simp only [metaOf, metaCount] at *
      rw [htr_r]
      simp
    by_cases hgt : metaCount r > acc.2
    · rw [hstep, if_pos hgt]
      rcases ih htr_rest (metaOf r, metaCount r) with ⟨heq, hbound⟩ |
        ⟨i, hi, heq, hacc, hmax, hfirst⟩
      · right
        refine ⟨0, by simp, ?_, ?_, ?_, ?_⟩
        · rw [heq]
          simp [List.getD_cons_zero]
        · simpa [List.getD_cons_zero] using hgt
        · intro j hj
          match j with
          | 0 => simp [List.getD_cons_zero]
          | j + 1 =>
            simp only [List.getD_cons_succ, List.getD_cons_zero]
            have hjlt : j < rest.length := by
              simp only [List.length_cons] at hj
              omega
            have hmem : rest.getD j Json.null ∈ rest := by
              rw [List.getD_eq_getElem rest Json.null hjlt]
              exact List.getElem_mem hjlt
            exact hbound _ hmem
        · intro j hj
          omega
      · right
        refine ⟨i + 1, by simp only [List.length_cons]; omega, ?_, ?_, ?_, ?_⟩
        · rw [heq]
          simp [List.getD_cons_succ]
        · simp only [List.getD_cons_succ]
          omega
        · intro j hj
          match j with
          | 0 =>
            simp only [List.getD_cons_succ, List.getD_cons_zero]
            omega
          | j + 1 =>
            simp only [List.getD_cons_succ]
            have hjlt : j < rest.length := by
              simp only [List.length_cons] at hj
              omega
            exact hmax j hjlt
        · intro j hj
          match j with
          | 0 =>
            simp only [List.getD_cons_succ, List.getD_cons_zero]
            omega
          | j + 1 =>
            simp only [List.getD_cons_succ]
            exact hfirst j (by omega)
    · rw [hstep, if_neg hgt]
      rcases ih htr_rest acc with ⟨heq, hbound⟩ | ⟨i, hi, heq, hacc, hmax, hfirst⟩
      · left
        refine ⟨heq, ?_⟩
        intro x hx
        rcases List.mem_cons.mp hx with rfl | hx'
        · omega
        · exact hbound x hx'
      · right
        refine ⟨i + 1, by simp only [List.length_cons]; omega, ?_, ?_, ?_, ?_⟩
        · rw [heq]
          simp [List.getD_cons_succ]
        · simp only [List.getD_cons_succ]
          omega
        · intro j hj
          match j with
          | 0 =>
            simp only [List.getD_cons_succ, List.getD_cons_zero]
            omega
          | j + 1 =>
            simp only [List.getD_cons_succ]
            have hjlt : j < rest.length := by
              simp only [List.length_cons] at hj
              omega
            exact hmax j hjlt
        · intro j hj
          match j with
          | 0 =>
            simp only [List.getD_cons_succ, List.getD_cons_zero]
            omega
          | j + 1 =>
            simp only [List.getD_cons_succ]
            exact hfirst j (by omega)

/-- Claim C2: metadata consolidation considers discovery-stage results only
(whenever a run returns a record, its metadata equals best_metadata of the
parsed discovery results, independently of the verification call), and over
those results it selects the metadata with the maximum non-null filled-field
count, ties broken by earliest chunk order (first maximum wins). -/
theorem c2_metadata_selection :
    (∀ (pageCount : Nat) (dcall : Nat → Nat → CallResult) (vcall : Nat → CallResult)
        (rec : FinalRecord),
        (process_pdf pageCount dcall vcall).retVal = some rec →
        rec.metadata = best_metadata ((discoveryResultsOf pageCount dcall).filterMap loads)) ∧
    (∀ results : List Json, (∀ r ∈ results, (metaOf r).truthy = true) →
      0 < results.length →
      ∃ i, i < results.length ∧
        best_metadata results = metaOf (results.getD i Json.null) ∧
        (∀ j, j < results.length →
          metaCount (results.getD j Json.null) ≤ metaCount (results.getD i Json.null)) ∧
        (∀ j, j < i →
          metaCount (results.getD j Json.null) < metaCount (results.getD i Json.null))) := by
  constructor
  · intro pageCount dcall vcall rec hrec
    cases h : (candidatesOf pageCount dcall).isEmpty with
    | true =>
      rw [process_pdf_no_candidates pageCount dcall vcall h] at hrec
      simp at hrec
    | false =>
      cases hp : loads (get_structured_data_from_images vcall).text with
      | none =>
        rw [process_pdf_parse_fail pageCount dcall vcall h hp] at hrec
        simp at hrec
      | some j =>
        rw [process_pdf_record pageCount dcall vcall j h hp] at hrec
        simp only [Option.some.injEq] at hrec
        rw [← hrec]
  · intro results htr hlen
    rcases foldl_metadataStep_spec results htr (Json.obj [], (-1 : Int)) with
      ⟨_, hbound⟩ | ⟨i, hi, heq, _, hmax, hfirst⟩
    · exfalso
      have hmem : results.getD 0 Json.null ∈ results := by
        rw [List.getD_eq_getElem results Json.null hlen]
        exact List.getElem_mem hlen
      have := hbound _ hmem
      have hnn : (0 : Int) ≤ metaCount (results.getD 0 Json.null) := by
        rw [metaCount]
        exact Int.ofNat_nonneg _
      omega
    · refine ⟨i, hi, ?_, hmax, hfirst⟩
      rw [best_metadata, heq]

/-- Witness for C2: discovery filled-field counts [2, 0, 3, 3] select the
metadata of index 2 (first maximum), not index 3. -/
theorem c2_metadata_selection_witness :
    best_metadata c2Results =
      Json.obj [("book_title", Json.str "T3"), ("authors", Json.str "A"),
                ("publishing_house", Json.str "P"), ("publishing_year", Json.null)] ∧
    (∃ i, i < c2Results.length ∧
      best_metadata c2Results = metaOf (c2Results.getD i Json.null) ∧
      (∀ j, j < c2Results.length →
        metaCount (c2Results.getD j Json.null) ≤ metaCount (c2Results.getD i Json.null)) ∧
      (∀ j, j < i →
        metaCount (c2Results.getD j Json.null) < metaCount (c2Results.getD i Json.null))) :=
  ⟨rfl, c2_metadata_selection.2 c2Results (by decide) (by decide)⟩

/-- Membership in the candidate page set: exactly the indices of the slice
[c*chunk_size, min((c+1)*chunk_size, numImages)) of some flagged chunk c. -/
theorem mem_toc_page_indices (numImages : Nat) (results : List String) (idx : Nat) :
    idx ∈ toc_page_indices numImages results ↔
      ∃ c, c < results.length ∧ chunkFlag (results.getD c "") = true ∧
        c * chunk_size ≤ idx ∧ idx < min ((c + 1) * chunk_size) numImages := by
  rw [toc_page_indices, List.mem_flatMap]
  constructor
  · rintro ⟨c, hc, hidx⟩
    rw [List.mem_range] at hc
    by_cases hf : chunkFlag (results.getD c "") = true
    · rw [if_pos hf, chunkIndices, List.mem_range'_1] at hidx
      refine ⟨c, hc, hf, hidx.1, ?_⟩
      have h2 := hidx.2
      simp only [chunk_size] at *
      omega
    · rw [if_neg hf] at hidx
      exact absurd hidx (List.not_mem_nil idx)
  · rintro ⟨c, hc, hf, hlo, hhi⟩
    refine ⟨c, List.mem_range.mpr hc, ?_⟩
    rw [if_pos hf, chunkIndices, List.mem_range'_1]
    simp only [chunk_size] at *
    exact ⟨hlo, by omega⟩

/-- A step-1 arithmetic range is strictly increasing. -/
theorem range'_pairwise_lt (s n : Nat) : (List.range' s n).Pairwise (· < ·) := by
  induction n generalizing s with
  | zero => simp
  | succ n ih =>
    rw [List.range'_succ, List.pairwise_cons]
    refine ⟨?_, ih (s + 1)⟩
    intro b hb
    rw [List.mem_range'_1] at hb
    omega

/-- Every index contributed by the first n chunks is below n*chunk_size. -/
theorem toc_indices_lt (numImages : Nat) (results : List String) (n : Nat) (a : Nat)
    (ha : a ∈ (List.range n).flatMap fun c =>
      if chunkFlag (results.getD c "") then chunkIndices numImages c else []) :
    a < n * chunk_size := by
  rw [List.mem_flatMap] at ha
  obtain ⟨c, hc, hidx⟩ := ha
  rw [List.mem_range] at hc
  by_cases hf : chunkFlag (results.getD c "") = true
  · rw [if_pos hf, chunkIndices, List.mem_range'_1] at hidx
    simp only [chunk_size] at *
    omega
  · rw [if_neg hf] at hidx
    exact absurd hidx (List.not_mem_nil a)

/-- The candidate page list is strictly ascending (so duplicate-free): the
per-chunk ranges are disjoint and emitted in ascending chunk order. -/
theorem toc_page_indices_pairwise (numImages : Nat) (results : List String) :
    (toc_page_indices numImages results).Pairwise (· < ·) := by
  rw [toc_page_indices]
  generalize results.length = n
  induction n with
  | zero => simp
  | succ n ih =>
    rw [List.range_succ, List.flatMap_append, List.pairwise_append]
    refine ⟨ih, ?_, ?_⟩
    · simp only [List.flatMap_cons, List.flatMap_nil, List.append_nil]
      by_cases hf : chunkFlag (results.getD n "") = true
      · rw [if_pos hf, chunkIndices]
        exact range'_pairwise_lt _ _
      · rw [if_neg hf]
        simp
    · intro a ha b hb
      have halt := toc_indices_lt numImages results n a ha
      simp only [List.flatMap_cons, List.flatMap_nil, List.append_nil] at hb
      by_cases hf : chunkFlag (results.getD n "") = true
      · rw [if_pos hf, chunkIndices, List.mem_range'_1] at hb
        simp only [chunk_size] at *
        omega
      · rw [if_neg hf] at hb
        exact absurd hb (List.not_mem_nil b)

/-- Counterexample for C6: a Fatal discovery failure can contribute candidate
indices. The exception message is classified fatal (not transient), the
wrapped call returns the fatal sentinel immediately, yet that sentinel parses
with an injected truthy toc_entries field, so the window's two page indices
enter the candidate set. -/
theorem c6_fatal_injection_counterexample :
    isTransientError injMsg = false ∧
    (get_structured_data_from_images (fun _ => CallResult.exc injMsg)).text = fatalText injMsg ∧
    chunkFlag (fatalText injMsg) = true ∧
    toc_page_indices 2 [fatalText injMsg] = [0, 1] :=
  ⟨by decide, rfl, rfl, rfl⟩

/-- Claim C6 (amended): the candidate page set is exactly the union of the
page indices of the windows whose result string parses to an object with a
truthy toc_entries field; windows whose result has an empty entry list, is
the Exhausted sentinel, is a Fatal sentinel with a benign message, or fails
to parse contribute no indices (and each window's contribution depends only
on its own result string, so a parse failure cannot abort its siblings). A
Fatal message that itself injects a toc_entries field into the sentinel can,
however, contribute its window's indices. -/
theorem c6_candidate_union :
    (∀ (numImages : Nat) (results : List String) (idx : Nat),
        idx ∈ toc_page_indices numImages results ↔
          ∃ c, c < results.length ∧ chunkFlag (results.getD c "") = true ∧
            c * chunk_size ≤ idx ∧ idx < min ((c + 1) * chunk_size) numImages) ∧
    chunkFlag exhaustedText = false ∧
    chunkFlag (fatalText "401 unauthorized") = false ∧
    chunkFlag "oops" = false ∧
    chunkFlag emptyTocText = false ∧
    chunkFlag discFlagText = true :=
  ⟨mem_toc_page_indices, rfl, rfl, rfl, rfl, rfl⟩

/-- Claim C7: if every window's parsed result has zero TocEntry (it fails to
parse, or parses to an object whose toc_entries field is absent or the empty
array), the candidate set is empty and the pipeline returns the line-211
NoCandidatesFound result (None) for every verification capability — the
verification stage is never invoked. -/
theorem c7_no_candidates (pageCount : Nat) (dcall : Nat → Nat → CallResult)
    (h : ∀ c, c < (discoveryResultsOf pageCount dcall).length →
      loads ((discoveryResultsOf pageCount dcall).getD c "") = none ∨
      ∃ fs, loads ((discoveryResultsOf pageCount dcall).getD c "") = some (Json.obj fs) ∧
        (lookupField fs "toc_entries" = none ∨
          lookupField fs "toc_entries" = some (Json.arr []))) :
    candidatesOf pageCount dcall = [] ∧
    ∀ vcall : Nat → CallResult, process_pdf pageCount dcall vcall = ⟨none, false, []⟩ := by
  have hflag : ∀ c, c < (discoveryResultsOf pageCount dcall).length →
      chunkFlag ((discoveryResultsOf pageCount dcall).getD c "") = false := by
    intro c hc
    rcases h c hc with hnone | ⟨fs, hsome, hf | hf⟩
    · rw [chunkFlag, hnone]
    · rw [chunkFlag, hsome]
      show (match Json.getKey (Json.obj fs) "toc_entries" with
            | some v => v.truthy | none => false) = false
      rw [Json.getKey, hf]
    · rw [chunkFlag, hsome]
      show (match Json.getKey (Json.obj fs) "toc_entries" with
            | some v => v.truthy | none => false) = false
      rw [Json.getKey, hf]
      rfl
  have hempty : candidatesOf pageCount dcall = [] := by
    rw [candidatesOf, List.eq_nil_iff_forall_not_mem]
    intro x hx
    rw [mem_toc_page_indices] at hx
    obtain ⟨c, hc, hf, _⟩ := hx
    rw [hflag c hc] at hf
    exact Bool.false_ne_true hf
  refine ⟨hempty, ?_⟩
  intro vcall
  apply process_pdf_no_candidates
  rw [hempty]
  rfl

/-- Witness for C7: a 7-page run whose chunk 0 reports an empty entry list
and whose chunk 1 fails to parse yields None without consulting the
verification capability. -/
theorem c7_no_candidates_witness :
    candidatesOf 7 c7DCall = [] ∧
    process_pdf 7 c7DCall (fun _ => CallResult.ok "\x7b\x7d") = ⟨none, false, []⟩ := by
  have hh : ∀ c, c < (discoveryResultsOf 7 c7DCall).length →
      loads ((discoveryResultsOf 7 c7DCall).getD c "") = none ∨
      ∃ fs, loads ((discoveryResultsOf 7 c7DCall).getD c "") = some (Json.obj fs) ∧
        (lookupField fs "toc_entries" = none ∨
          lookupField fs "toc_entries" = some (Json.arr [])) := by
    intro c hc
    have hlen : (discoveryResultsOf 7 c7DCall).length = 2 := rfl
    rw [hlen] at hc
    interval_cases c
    · exact Or.inr ⟨[("metadata", Json.null), ("toc_entries", Json.arr [])], rfl, Or.inr rfl⟩
    · exact Or.inl rfl
  exact ⟨(c7_no_candidates 7 c7DCall hh).1, (c7_no_candidates 7 c7DCall hh).2 _⟩

/-- Claim C8: whenever the candidate set is non-empty, the verification stage
is invoked exactly once, over the strictly ascending duplicate-free list of
candidate page indices, and its toc_entries list is authoritative even when
empty: an empty list alongside a non-empty candidate set yields a valid
record (with the consolidated discovery metadata), not an error. -/
theorem c8_verification_stage (pageCount : Nat) (dcall : Nat → Nat → CallResult)
    (vcall : Nat → CallResult) (fs : List (String × Json))
    (hne : (candidatesOf pageCount dcall).isEmpty = false)
    (hparse : loads (get_structured_data_from_images vcall).text = some (Json.obj fs))
    (hempty : lookupField fs "toc_entries" = some (Json.arr [])) :
    (process_pdf pageCount dcall vcall).verifyInvoked = true ∧
    (process_pdf pageCount dcall vcall).verifyPaths = candidatesOf pageCount dcall ∧
    (candidatesOf pageCount dcall).Pairwise (· < ·) ∧
    (candidatesOf pageCount dcall).Nodup ∧
    (process_pdf pageCount dcall vcall).retVal =
      some ⟨best_metadata ((discoveryResultsOf pageCount dcall).filterMap loads), []⟩ := by
  have hrec := process_pdf_record pageCount dcall vcall (Json.obj fs) hne hparse
  have hpw : (candidatesOf pageCount dcall).Pairwise (· < ·) :=
    toc_page_indices_pairwise _ _
  refine ⟨by rw [hrec], by rw [hrec], hpw, hpw.imp (fun hab => Nat.ne_of_lt hab), ?_⟩
  rw [hrec]
  simp only [tocEntriesOf, Json.getKey, hempty, sortEntries]

/-- Witness for C8: a one-page run with a flagged discovery chunk and a
verification response whose toc_entries is empty produces a valid record
with an empty TOC over the candidate list [0]. -/
theorem c8_verification_stage_witness :
    (process_pdf 1 (fun _ _ => CallResult.ok discFlagText)
        (fun _ => CallResult.ok emptyTocText)).verifyInvoked = true ∧
    (process_pdf 1 (fun _ _ => CallResult.ok discFlagText)
        (fun _ => CallResult.ok emptyTocText)).verifyPaths =
      candidatesOf 1 (fun _ _ => CallResult.ok discFlagText) ∧
    (candidatesOf 1 (fun _ _ => CallResult.ok discFlagText)).Pairwise (· < ·) ∧
    (candidatesOf 1 (fun _ _ => CallResult.ok discFlagText)).Nodup ∧
    (process_pdf 1 (fun _ _ => CallResult.ok discFlagText)
        (fun _ => CallResult.ok emptyTocText)).retVal =
      some ⟨best_metadata ((discoveryResultsOf 1
              (fun _ _ => CallResult.ok discFlagText)).filterMap loads), []⟩ ∧
    candidatesOf 1 (fun _ _ => CallResult.ok discFlagText) = [0] := by
  have h := c8_verification_stage 1 (fun _ _ => CallResult.ok discFlagText)
    (fun _ => CallResult.ok emptyTocText)
    [("metadata", Json.null), ("toc_entries", Json.arr [])]
    (by decide) rfl rfl
  exact ⟨h.1, h.2.1, h.2.2.1, h.2.2.2.1, h.2.2.2.2, rfl⟩

/-- Claim C10: only the first 20 pages exist anywhere in a run: the rendered
list is the first min(20, pageCount) page indices, all below 20; every page
dispatched to discovery, every candidate index, and every page passed to the
verification stage is below 20. -/
theorem c10_page_budget (pageCount : Nat) (dcall : Nat → Nat → CallResult)
    (vcall : Nat → CallResult) :
    (renderedPages pageCount).length = min 20 pageCount ∧
    (renderedPages pageCount).all (fun p => decide (p < 20)) = true ∧
    ((chunkWindows chunk_size (renderedPages pageCount)).flatten).all
      (fun p => decide (p < 20)) = true ∧
    (candidatesOf pageCount dcall).all (fun p => decide (p < 20)) = true ∧
    (process_pdf pageCount dcall vcall).verifyPaths.all (fun p => decide (p < 20)) = true := by
  have hrall : (renderedPages pageCount).all (fun p => decide (p < 20)) = true := by
    rw [List.all_eq_true]
    intro x hx
    rw [renderedPages, List.mem_range] at hx
    exact decide_eq_true (by omega)
  have hfl : (chunkWindows chunk_size (renderedPages pageCount)).flatten =
      renderedPages pageCount := chunkWindows_flatten 4 _
  have hcand : (candidatesOf pageCount dcall).all (fun p => decide (p < 20)) = true := by
    rw [List.all_eq_true]
    intro x hx
    rw [candidatesOf, mem_toc_page_indices] at hx
    obtain ⟨c, _, _, _, hhi⟩ := hx
    have hlen : (renderedPages pageCount).length = min 20 pageCount := by
      rw [renderedPages, List.length_range]
    rw [hlen] at hhi
    exact decide_eq_true (by omega)
  refine ⟨by rw [renderedPages, List.length_range], hrall, by rw [hfl]; exact hrall, hcand, ?_⟩
  cases h : (candidatesOf pageCount dcall).isEmpty with
  | true => rw [process_pdf_no_candidates pageCount dcall vcall h]; rfl
  | false =>
    cases hp : loads (get_structured_data_from_images vcall).text with
    | none => rw [process_pdf_parse_fail pageCount dcall vcall h hp]; exact hcand
    | some j => rw [process_pdf_record pageCount dcall vcall j h hp]; exact hcand

/-- Counterexample for C1: a run in which the verification-stage extraction
ends Exhausted (every attempt transient) does not abort: the exhausted
sentinel is itself valid JSON, so the pipeline proceeds to consolidation and
returns a ConsolidatedRecord whose metadata comes from the discovery stage
(and whose TOC is empty) — the caller cannot distinguish this from success. -/
theorem c1_exhausted_fallback_counterexample :
    (get_structured_data_from_images (fun _ => CallResult.exc "503")).text = exhaustedText ∧
    process_pdf 3 (fun _ _ => CallResult.ok c1DiscText) (fun _ => CallResult.exc "503") =
      ⟨some ⟨Json.obj [("book_title", Json.str "T")], []⟩, true, [0, 1, 2]⟩ :=
  ⟨rfl, rfl⟩

/-- Claim C1 (amended): when the verification-stage extraction ends Exhausted
(all three attempts transient) in a run with a non-empty candidate set, the
pipeline does not abort with a distinguishable failure: the error sentinel
parses as JSON, consolidation proceeds, and the returned record carries the
discovery-stage metadata and an empty TOC. -/
theorem c1_verification_fallback (pageCount : Nat) (dcall : Nat → Nat → CallResult)
    (vcall : Nat → CallResult)
    (hne : (candidatesOf pageCount dcall).isEmpty = false)
    (h0 : isTransientAt vcall 0 = true) (h1 : isTransientAt vcall 1 = true)
    (h2 : isTransientAt vcall 2 = true) :
    (process_pdf pageCount dcall vcall).retVal =
      some ⟨best_metadata ((discoveryResultsOf pageCount dcall).filterMap loads), []⟩ := by
  have htext := retry_text_exhausted vcall h0 h1 h2
  have hparse : loads (get_structured_data_from_images vcall).text =
      some (Json.obj [("error", Json.str "API call failed after multiple retries")]) := by
    rw [htext]
    rfl
  rw [process_pdf_record pageCount dcall vcall _ hne hparse]
  rfl

/-- Witness for C1 (amended) at a concrete run: one flagged discovery chunk,
verification failing with Deadline Exceeded on every attempt. -/
theorem c1_verification_fallback_witness :
    (candidatesOf 1 (fun _ _ => CallResult.ok c1DiscText)).isEmpty = false ∧
    (process_pdf 1 (fun _ _ => CallResult.ok c1DiscText)
        (fun _ => CallResult.exc "Deadline Exceeded here")).retVal =
      some ⟨best_metadata ((discoveryResultsOf 1
              (fun _ _ => CallResult.ok c1DiscText)).filterMap loads), []⟩ :=
  ⟨by decide,
   c1_verification_fallback 1 (fun _ _ => CallResult.ok c1DiscText)
     (fun _ => CallResult.exc "Deadline Exceeded here")
     (by decide) (by decide) (by decide) (by decide)⟩

/-- Witness for C6 (amended) at a concrete instance of the membership
characterization. -/
theorem c6_candidate_union_witness :
    2 ∈ toc_page_indices 3 [discFlagText] ↔
      ∃ c, c < ([discFlagText] : List String).length ∧
        chunkFlag (([discFlagText] : List String).getD c "") = true ∧
        c * chunk_size ≤ 2 ∧ 2 < min ((c + 1) * chunk_size) 3 :=
  c6_candidate_union.1 3 [discFlagText] 2

/-- Witness for C10 at a concrete 25-page run: everything stays below page
index 20. -/
theorem c10_page_budget_witness :
    (renderedPages 25).length = min 20 25 ∧
    (renderedPages 25).all (fun p => decide (p < 20)) = true ∧
    ((chunkWindows chunk_size (renderedPages 25)).flatten).all
      (fun p => decide (p < 20)) = true ∧
    (candidatesOf 25 (fun _ _ => CallResult.ok discFlagText)).all
      (fun p => decide (p < 20)) = true ∧
    (process_pdf 25 (fun _ _ => CallResult.ok discFlagText)
        (fun _ => CallResult.ok emptyTocText)).verifyPaths.all
      (fun p => decide (p < 20)) = true :=
  c10_page_budget 25 (fun _ _ => CallResult.ok discFlagText)
    (fun _ => CallResult.ok emptyTocText)
